import Mathlib

/-!
Verification of the Agent Orchestration & Conversation Context subsystem.

Shallow embedding of `AgentManager` (server/src/agents/AgentManager, bundled
in the repository with `RideNowAgent.js`) together with the relevant parts of
`BaseAgent`, `AskMeAgent`, `RideNowAgent` and `FoodieAgent`.

Modelling conventions:
- JavaScript timestamps (`Date.now()`) are `Int`.
- Missing / `undefined` / `null` object fields are `Option`.
- The external completion service (OpenAI) and the agents' own response
  generation are external effects; one turn's outcomes are supplied by a
  `TurnOracle` record (classification outcome, per-agent invocation
  outcomes).  Control flow — which of those outcomes is consulted, in which
  order, and how failures propagate — is translated from the source.
- JavaScript reference semantics matter here: a context object fetched from
  the `conversationContext` Map is aliased with the stored one, so in-place
  mutations are visible in the store before any explicit `set`.  The
  embedding makes this explicit: whenever the context was already present in
  the store (`inStore`), each mutation is immediately reflected into the
  store (`sync`); for a freshly created context, mutations stay local until
  the explicit `conversationContext.set` call.
-/

namespace AgentOrch

/-- The `metadata` object of an `AgentResponse`.  `formatResponse` fills
`agent` and `timestamp`; the spread of its `metadata` parameter could add an
`error` key (no caller in the sources does, but the claims talk about it). -/
structure Metadata where
  agent : Option String := none
  timestamp : Option Int := none
  error : Option Bool := none
deriving Repr, DecidableEq

/-- The `context` object carried by a handoff directive
(`BaseAgent.createHandoff` puts `fromAgent` into it). -/
structure HandCtx where
  fromAgent : Option String := none
deriving Repr, DecidableEq

/-- A `handoff` directive as produced by `BaseAgent.createHandoff`:
`{targetAgent, reason, context, autoHandoff}`. -/
structure HandoffDirective where
  targetAgent : String
  reason : String
  hctx : HandCtx
  autoHandoff : Bool
deriving Repr, DecidableEq

/-- An `AgentResponse`.  `actions`/`suggestions`/`metadata` are `Option`
because `BaseAgent.handleError` returns an object carrying only `message`
and a top-level `error: true` field — the other keys are `undefined`. -/
structure AgentResponse where
  message : String
  actions : Option (List String) := none
  suggestions : Option (List String) := none
  handoff : Option HandoffDirective := none
  metadata : Option Metadata := none
  error : Option Bool := none
deriving Repr, DecidableEq

/-- A JavaScript `Error`: only its `message` is observable in the model. -/
structure JsError where
  msg : String
deriving Repr, DecidableEq

/-- `BaseAgent.formatResponse(message, actions, suggestions, metadata = {})`:
wraps a message with the producing agent's name and a timestamp. -/
def formatResponse (agentName : String) (now : Int) (message : String)
    (actions suggestions : List String) : AgentResponse :=
  { message := message
    actions := some actions
    suggestions := some suggestions
    handoff := none
    metadata := some { agent := some agentName, timestamp := some now, error := none }
    error := none }

/-- `BaseAgent.handleError(message, error)`: returns a plain object with the
apology text and a TOP-LEVEL `error: true` — no `actions`, no `suggestions`,
no `metadata` at all. -/
def baseHandleError (_message : String) : AgentResponse :=
  { message := "I apologize, but I’m having trouble processing your request. Let me try to help you in a different way."
    actions := none
    suggestions := none
    handoff := none
    metadata := none
    error := some true }

/-- `AskMeAgent.handleError(message, error)`: overrides the base handler and
returns `formatResponse(longApology, [], suggestions)` — so its metadata has
`agent`/`timestamp` but NO error flag, and there is no top-level `error`. -/
def askMeHandleError (now : Int) (_message : String) : AgentResponse :=
  formatResponse "AskMe AI" now
    "I apologize, but I encountered an issue while processing your request. Let me try to help you in a different way."
    []
    ["Try again", "Show app features", "Connect to food agent", "Connect to ride agent", "Get help"]

/-- `RideNowAgent.processMessage` with its internal body (intent analysis and
the per-intent handlers, all of which call external services) abstracted as
an oracle: the `try { ... } catch (error) { return this.handleError(...) }`
wrapper is the part translated from the source.  `RideNowAgent` does not
override `handleError`, so the catch returns `BaseAgent.handleError`. -/
def rideNowProcessMessage (inner : Except JsError AgentResponse)
    (message : String) : AgentResponse :=
  match inner with
  | Except.ok r => r
  | Except.error _ => baseHandleError message

/-- `AskMeAgent.processMessage` with the same try/catch structure; its catch
calls the overridden `AskMeAgent.handleError`. -/
def askMeProcessMessage (now : Int) (inner : Except JsError AgentResponse)
    (message : String) : AgentResponse :=
  match inner with
  | Except.ok r => r
  | Except.error _ => askMeHandleError now message

/-- Does `hay` start with `needle` (on character lists)? -/
def listStartsWith : List Char → List Char → Bool
  | _, [] => true
  | [], _ :: _ => false
  | a :: as, b :: bs => a = b && listStartsWith as bs

/-- Is `needle` a contiguous sublist of `hay`? -/
def listHasSub (needle : List Char) : List Char → Bool
  | [] => needle.isEmpty
  | c :: rest => listStartsWith (c :: rest) needle || listHasSub needle rest

/-- `str.includes(needle)` on JavaScript strings. -/
def strIncludes (hay needle : String) : Bool :=
  listHasSub needle.data hay.data

/-- `str.toLowerCase()` (ASCII, which is all the sources use). -/
def jsToLower (s : String) : String :=
  String.mk (s.data.map Char.toLower)

/-- A JavaScript whitespace character (the ones relevant to `trim`). -/
def isWsChar (c : Char) : Bool :=
  c = ' ' || c = '\t' || c = '\n' || c = '\r'

/-- `str.trim()`. -/
def jsTrim (s : String) : String :=
  String.mk (((s.data.dropWhile isWsChar).reverse.dropWhile isWsChar).reverse)

/-- The keyword list of `RideNowAgent.canHandle`. -/
def rideKeywords : List String :=
  ["cab", "taxi", "ride", "book", "uber", "ola", "auto", "rickshaw",
   "transport", "travel", "pickup", "drop", "fare", "driver",
   "airport", "station", "go to", "take me to"]

/-- The keyword list of `FoodieAgent.canHandle`. -/
def foodKeywords : List String :=
  ["food", "order", "restaurant", "eat", "hungry", "delivery", "menu",
   "cuisine", "dish", "meal", "breakfast", "lunch", "dinner", "snack",
   "pizza", "burger", "biryani", "curry", "chinese", "italian"]

/-- `keywords.some(k => message.toLowerCase().includes(k.toLowerCase()))`. -/
def keywordMatch (keywords : List String) (message : String) : Bool :=
  keywords.any (fun k => strIncludes (jsToLower message) (jsToLower k))

/-- Dispatch of `canHandle(message, context)` per registered agent id.
`ridenow` and `foodie` use keyword gating; `askme` returns `true`
unconditionally (it is the fallback agent).  The `travelbuddy`, `shopsmart`
and `grocer` source files are not in the corpus; they fall back to
`BaseAgent.canHandle`, which returns `true`, matching the spec's default
policy. -/
def canHandleOf (a : String) (message : String) : Bool :=
  if a = "ridenow" then keywordMatch rideKeywords message
  else if a = "foodie" then keywordMatch foodKeywords message
  else true

/-- One entry of a context's `history` array. -/
inductive HistEntry where
  | user (content : String) (timestamp : Int)
  | agentE (agentId : String) (content : String) (timestamp : Int) (metadata : Metadata)
  | handoffE (fromA toA : String) (content : String) (timestamp : Int) (metadata : Metadata)
deriving Repr, DecidableEq

/-- A `ConversationContext`.  The fresh object created on first contact has
only `currentAgent`, `history`, `handoffRequested`, `lastActivity`; the
other keys are `undefined` until assigned, hence the `none` defaults. -/
structure Context where
  currentAgent : Option String := none
  history : List HistEntry := []
  handoffRequested : Bool := false
  handoffTarget : Option String := none
  handoffReason : Option String := none
  handoffContext : Option HandCtx := none
  lastActivity : Int := 0
deriving Repr, DecidableEq

/-- The `conversationContext` Map, as an insertion-ordered association list
(JavaScript Map semantics: `set` on an existing key updates in place,
otherwise appends). -/
abbrev Store := List (String × Context)

/-- `Map.get`. -/
def storeGet : Store → String → Option Context
  | [], _ => none
  | p :: rest, uid => if p.1 = uid then some p.2 else storeGet rest uid

/-- `Map.set`. -/
def storeSet : Store → String → Context → Store
  | [], uid, c => [(uid, c)]
  | p :: rest, uid, c => if p.1 = uid then (uid, c) :: rest else p :: storeSet rest uid c

/-- `Map.delete` (keys are unique by construction, so a filter is exact). -/
def storeDelete (st : Store) (uid : String) : Store :=
  st.filter (fun p => p.1 ≠ uid)

/-- `AgentManager.getUserContext(userId)`: `map.get(userId) || null`. -/
def getUserContext (st : Store) (uid : String) : Option Context :=
  storeGet st uid

/-- `AgentManager.clearUserContext(userId)`. -/
def clearUserContext (st : Store) (uid : String) : Store :=
  storeDelete st uid

/-- `AgentManager.cleanupOldContexts()`: deletes every context whose
`lastActivity` is strictly below `now - 24h` (in milliseconds). -/
def cleanupOldContexts (now : Int) (st : Store) : Store :=
  st.filter (fun p => decide (now - 86400000 ≤ p.2.lastActivity))

/-- The roster installed by `AgentManager.initialize`, in insertion order. -/
def registeredAgents : List String :=
  ["foodie", "ridenow", "travelbuddy", "shopsmart", "grocer", "askme"]

/-- The external outcomes of one inbound turn: the classification call's
result (if it is made), each agent's `processMessage` outcome (if that agent
is invoked), each agent's `handleHandoff` outcome (if invoked), and the
turn's clock value. -/
structure TurnOracle where
  classify : Except JsError String
  agentResult : String → Except JsError AgentResponse
  handoffResult : String → Except JsError AgentResponse
  now : Int

/-- Result of `determineAgent`, instrumented with which external consultations
the control flow performed: `classifyCalled` is true iff the OpenAI
classification request was issued, `canHandleCalled` is true iff the current
agent's `canHandle` was consulted. -/
structure DetResult where
  agent : String
  classifyCalled : Bool
  canHandleCalled : Bool
deriving Repr, DecidableEq

/-- The classification branch of `determineAgent`: one OpenAI call; the
trimmed, lower-cased reply is checked against the roster, anything else
(including a thrown error, via the surrounding catch) falls back to
`'askme'`. -/
def classifyStep (o : TurnOracle) (chk : Bool) : DetResult :=
  match o.classify with
  | Except.error _ => { agent := "askme", classifyCalled := true, canHandleCalled := chk }
  | Except.ok raw =>
    let t := jsToLower (jsTrim raw)
    if registeredAgents.contains t then
      { agent := t, classifyCalled := true, canHandleCalled := chk }
    else
      { agent := "askme", classifyCalled := true, canHandleCalled := chk }

/-- `AgentManager.determineAgent(message, context, userProfile)`.  The sticky
branch keeps the current agent when it is set, no handoff is pending, the
agent is registered, and its `canHandle` accepts the message; every other
path issues a classification call.  (`userProfile` only decorates the
classification prompt and is absorbed into the oracle.) -/
def determineAgent (o : TurnOracle) (message : String) (ctx : Context) : DetResult :=
  match ctx.currentAgent with
  | some cur =>
    if ctx.handoffRequested then classifyStep o false
    else if registeredAgents.contains cur then
      if canHandleOf cur message then
        { agent := cur, classifyCalled := false, canHandleCalled := true }
      else classifyStep o true
    else classifyStep o false
  | none => classifyStep o false

/-- The `handoff` field of the returned envelope is heterogeneous in the
source: `null`, a directive object, the literal `true` (from
`processHandoff`), or absent altogether (the catch envelope). -/
inductive HandoffField where
  | absent
  | nullv
  | dir (h : HandoffDirective)
  | boolTrue
deriving Repr, DecidableEq

/-- The envelope returned by `processMessage` / `processHandoff`.  `Option`
fields are absent keys: the catch-path envelope carries only `agent`,
`message`, `error` and `originalError`. -/
structure Envelope where
  agent : String
  message : String
  actions : Option (List String)
  suggestions : Option (List String)
  handoff : HandoffField
  metadata : Option Metadata
  error : Option Bool
  originalError : Option String
deriving Repr, DecidableEq

/-- The success envelope of `processMessage`:
`{agent, message, actions: r.actions || [], suggestions: r.suggestions || [],
handoff: r.handoff || null, metadata: r.metadata || \x7b\x7d}`. -/
def successEnvelope (agentType : String) (resp : AgentResponse) : Envelope :=
  { agent := agentType
    message := resp.message
    actions := some (resp.actions.getD [])
    suggestions := some (resp.suggestions.getD [])
    handoff := match resp.handoff with
      | some h => HandoffField.dir h
      | none => HandoffField.nullv
    metadata := some (resp.metadata.getD {})
    error := none
    originalError := none }

/-- The catch-path envelope of `processMessage`: the AskMe agent's
`handleError` reply plus `error: true` and `originalError: error.message`;
the `actions`, `suggestions`, `handoff` and `metadata` keys are absent. -/
def catchEnvelope (o : TurnOracle) (message : String) (e : JsError) : Envelope :=
  { agent := "askme"
    message := (askMeHandleError o.now message).message
    actions := none
    suggestions := none
    handoff := HandoffField.absent
    metadata := none
    error := some true
    originalError := some e.msg }

/-- Alias-aware store update: mutations on a context fetched from the Map are
visible in the store immediately; mutations on a freshly created context are
not (until an explicit `set`). -/
def sync (inStore : Bool) (userId : String) (st : Store) (c : Context) : Store :=
  if inStore then storeSet st userId c else st

/-- Step 1 of the turn: `lastActivity = Date.now()` and
`history.push({type: 'user', content, timestamp})`. -/
def inboundCtx (o : TurnOracle) (message : String) (ctx0 : Context) : Context :=
  { ctx0 with
    lastActivity := o.now
    history := ctx0.history ++ [HistEntry.user message o.now] }

/-- `AgentManager.processHandoff(userId, targetAgent, handoffContext)`.
It re-fetches the context from the Map (throwing if absent), clears the
handoff flags and installs `currentAgent = targetAgent` BEFORE checking that
the target is registered; a missing target then throws with the mutation
already persisted (reference semantics).  Errors are rethrown to the caller
together with the store as mutated so far. -/
def processHandoff (o : TurnOracle) (userId targetAgent : String)
    (hctx : HandCtx) (st : Store) : Except (Store × JsError) (Store × Envelope) :=
  match storeGet st userId with
  | none => Except.error (st, { msg := "No conversation context found for handoff" })
  | some ctx =>
    let ctx1 : Context :=
      { ctx with
        handoffRequested := false
        handoffTarget := none
        handoffReason := none
        currentAgent := some targetAgent
        handoffContext := some hctx }
    let st1 := storeSet st userId ctx1
    if registeredAgents.contains targetAgent then
      match o.handoffResult targetAgent with
      | Except.error e => Except.error (st1, e)
      | Except.ok resp =>
        let entry := HistEntry.handoffE (hctx.fromAgent.getD "unknown") targetAgent
          resp.message o.now (resp.metadata.getD {})
        let ctx2 := { ctx1 with history := ctx1.history ++ [entry] }
        let st2 := storeSet st1 userId ctx2
        Except.ok (st2,
          { agent := targetAgent
            message := resp.message
            actions := some (resp.actions.getD [])
            suggestions := some (resp.suggestions.getD [])
            handoff := HandoffField.boolTrue
            metadata := some (resp.metadata.getD {})
            error := none
            originalError := none })
    else Except.error (st1, { msg := "Target agent " ++ targetAgent ++ " not found" })

/-- Steps 4-6 of the turn, after the chosen agent's `processMessage` returned
`resp`: append the agent reply to history; record handoff flags if a
directive is present; on `autoHandoff` delegate to `processHandoff` (whose
throw is caught by the enclosing catch); otherwise save the context, run the
cleanup sweep and return the success envelope. -/
def afterResponse (o : TurnOracle) (userId message : String) (inStore : Bool)
    (st2 : Store) (ctx2 : Context) (agentType : String) (resp : AgentResponse) :
    Store × Envelope :=
  let ctx3 := { ctx2 with
    history := ctx2.history ++
      [HistEntry.agentE agentType resp.message o.now (resp.metadata.getD {})] }
  let st3 := sync inStore userId st2 ctx3
  match resp.handoff with
  | some h =>
    let ctx4 := { ctx3 with
      handoffRequested := true
      handoffTarget := some h.targetAgent
      handoffReason := some h.reason }
    let st4 := sync inStore userId st3 ctx4
    if h.autoHandoff then
      match processHandoff o userId h.targetAgent h.hctx st4 with
      | Except.ok pr => pr
      | Except.error (st5, e) => (st5, catchEnvelope o message e)
    else
      (cleanupOldContexts o.now (storeSet st4 userId ctx4), successEnvelope agentType resp)
  | none =>
    (cleanupOldContexts o.now (storeSet st3 userId ctx3), successEnvelope agentType resp)

/-- `AgentManager.processMessage(userId, message, userProfile)` after
initialization.  The function is total: every internal failure is absorbed by
the catch (the AskMe fallback agent is always registered, so the rethrow
branch of the catch is dead code). -/
def processMessage (o : TurnOracle) (userId message : String) (st : Store) :
    Store × Envelope :=
  let got := storeGet st userId
  let inStore := got.isSome
  let ctx1 := inboundCtx o message (got.getD {})
  let res := determineAgent o message ctx1
  let ctx2 := { ctx1 with currentAgent := some res.agent }
  let st2 := sync inStore userId st ctx2
  match o.agentResult res.agent with
  | Except.error e => (st2, catchEnvelope o message e)
  | Except.ok resp => afterResponse o userId message inStore st2 ctx2 res.agent resp

/-- A JavaScript value sitting in an agent's `isActive` slot: either a plain
boolean (what `BaseAgent`'s constructor assigns: `this.isActive = true`) or a
function value returning a boolean. -/
inductive JsVal where
  | jbool (b : Bool)
  | jfun (b : Bool)
deriving Repr, DecidableEq

/-- `agent.isActive ? agent.isActive() : true`: a falsy slot short-circuits
to `true`; a truthy slot is CALLED, which is a `TypeError` when the value is
a plain boolean rather than a function. -/
def evalIsActive : JsVal → Except JsError Bool
  | JsVal.jbool true => Except.error { msg := "agent.isActive is not a function" }
  | JsVal.jbool false => Except.ok true
  | JsVal.jfun b => Except.ok b

/-- The observable fields of an agent object needed by the roster queries. -/
structure AgentObj where
  name : String
  capabilities : List String
  isActiveV : JsVal
  lastActivity : Int
deriving Repr, DecidableEq

/-- `BaseAgent`'s constructor: `this.isActive = true` (a boolean field, not a
method) and `this.lastActivity = Date.now()`. -/
def mkBaseAgent (nm : String) (caps : List String) (now : Int) : AgentObj :=
  { name := nm, capabilities := caps, isActiveV := JsVal.jbool true, lastActivity := now }

/-- The roster built by `AgentManager.initialize`.  Every agent class in the
corpus calls `super(...)` without touching `isActive`, so each inherits the
boolean field.  The `travelbuddy`/`shopsmart`/`grocer` sources are missing
from the corpus; they are `BaseAgent` subclasses by the same pattern
(display names taken from `AskMeAgent`'s feature list). -/
def initRoster (now : Int) : List (String × AgentObj) :=
  [("foodie", mkBaseAgent "Foodie AI"
      ["food ordering", "restaurant recommendations", "dining"] now),
   ("ridenow", mkBaseAgent "RideNow AI"
      ["cab booking", "ride sharing", "transportation options",
       "fare estimation", "ride tracking"] now),
   ("travelbuddy", mkBaseAgent "Travel Buddy AI"
      ["flight booking", "hotel search", "trip planning"] now),
   ("shopsmart", mkBaseAgent "ShopSmart AI"
      ["product search", "price comparison"] now),
   ("grocer", mkBaseAgent "Grocer AI"
      ["grocery lists", "quick delivery"] now),
   ("askme", mkBaseAgent "AskMe AI"
      ["general questions", "casual conversation", "help and support",
       "information lookup", "recommendations"] now)]

/-- `AgentManager.getAvailableAgents()`: `Array.from(this.agents.keys())`. -/
def getAvailableAgents (roster : List (String × AgentObj)) : List String :=
  roster.map (fun p => p.1)

/-- One entry of `getAgentStatus`'s result:
`{initialized: !!agent, active: ...}`. -/
structure StatusEntry where
  initialized : Bool
  active : Bool
deriving Repr, DecidableEq

/-- `AgentManager.getAgentStatus()`: iterates the roster in order and
evaluates `agent.isActive ? agent.isActive() : true` for each agent; the
first `TypeError` aborts the whole loop. -/
def getAgentStatus (roster : List (String × AgentObj)) :
    Except JsError (List (String × StatusEntry)) :=
  roster.mapM (fun p =>
    (evalIsActive p.2.isActiveV).map
      (fun b => (p.1, { initialized := true, active := b })))

/-- An externally invocable operation of the orchestration subsystem (the
module exports `processMessage` and `clearUserContext` as the mutating
entries; `processHandoff` is reachable only from inside `processMessage`,
and `getUserContext` is read-only). -/
inductive Op where
  | msg (o : TurnOracle) (userId text : String)
  | clear (userId : String)

/-- Apply one operation to the store. -/
def applyOp (st : Store) : Op → Store
  | Op.msg o uid t => (processMessage o uid t st).1
  | Op.clear uid => clearUserContext st uid

/-- Run a sequence of operations from the empty store. -/
def runOps (ops : List Op) : Store :=
  ops.foldl applyOp []

/-- Well-behaved agent responses for one turn: every handoff directive an
invoked agent can produce names a registered target distinct from the
producing agent. -/
def dirOk (o : TurnOracle) : Prop :=
  ∀ a r h, o.agentResult a = Except.ok r → r.handoff = some h →
    registeredAgents.contains h.targetAgent = true ∧ h.targetAgent ≠ a

/-- A well-behaved operation. -/
def opOk : Op → Prop
  | Op.msg o _ _ => dirOk o
  | Op.clear _ => True

/-- The claimed per-context invariant, registration part: `currentAgent` and
`handoffTarget` are empty or registered identifiers. -/
def ctxOk (c : Context) : Prop :=
  (∀ a, c.currentAgent = some a → registeredAgents.contains a = true) ∧
  (∀ t, c.handoffTarget = some t → registeredAgents.contains t = true)

/-- The invariant lifted to the whole store. -/
def storeOk (st : Store) : Prop :=
  ∀ p ∈ st, ctxOk p.2

/-- Projection used to observe a stored context in closed statements. -/
def targetAndCurrent (c : Context) : Option String × Option String :=
  (c.handoffTarget, c.currentAgent)

/-- The store component of a `processHandoff` outcome (the store as mutated
so far, whether the call returned or threw). -/
def exStore : Except (Store × JsError) (Store × Envelope) → Store
  | Except.ok (s, _) => s
  | Except.error (s, _) => s

/-! ## Concrete fixtures used by witnesses and counterexamples -/

/-- A plain agent reply with no handoff directive. -/
def plainResp : AgentResponse :=
  formatResponse "AskMe AI" 0 "How can I help?" [] []

/-- A reply carrying a handoff directive, as built by
`BaseAgent.createHandoff` merged into a formatted response. -/
def directiveResp (fromName target : String) (auto : Bool) : AgentResponse :=
  { message := "Handing you over."
    actions := some []
    suggestions := some []
    handoff := some { targetAgent := target, reason := "domain switch",
                      hctx := { fromAgent := some fromName }, autoHandoff := auto }
    metadata := some { agent := some fromName, timestamp := some 0, error := none }
    error := none }

/-- Oracle: classification says `askme`; all invocations succeed plainly. -/
def oPlain : TurnOracle :=
  { classify := Except.ok "askme"
    agentResult := fun _ => Except.ok plainResp
    handoffResult := fun _ => Except.ok plainResp
    now := 0 }

/-- Oracle for a turn classified to `ridenow` whose reply records a
non-auto handoff to `foodie`. -/
def oC2a : TurnOracle :=
  { classify := Except.ok "ridenow"
    agentResult := fun a =>
      if a = "ridenow" then Except.ok (directiveResp "RideNow AI" "foodie" false)
      else Except.ok plainResp
    handoffResult := fun _ => Except.ok plainResp
    now := 0 }

/-- Oracle for the follow-up turn: classification says `askme`. -/
def oC2b : TurnOracle :=
  { classify := Except.ok "askme"
    agentResult := fun _ => Except.ok plainResp
    handoffResult := fun _ => Except.ok plainResp
    now := 0 }

/-- Store after the first C2 turn: user `u` has a recorded pending handoff
to `foodie` with `currentAgent = ridenow`. -/
def stC2 : Store :=
  (processMessage oC2a "u" "book a cab to the station" []).1

/-- The context recorded by that turn. -/
def ctxC2 : Context :=
  (storeGet stC2 "u").getD {}

/-- Oracle for a first-turn auto-handoff: classified to `ridenow`, whose
reply auto-hands off to `foodie`. -/
def oC3 : TurnOracle :=
  { classify := Except.ok "ridenow"
    agentResult := fun a =>
      if a = "ridenow" then Except.ok (directiveResp "RideNow AI" "foodie" true)
      else Except.ok plainResp
    handoffResult := fun _ => Except.ok plainResp
    now := 0 }

/-- Oracle where every agent invocation throws `boom`. -/
def oC4 : TurnOracle :=
  { classify := Except.ok "ridenow"
    agentResult := fun _ => Except.error { msg := "boom" }
    handoffResult := fun _ => Except.error { msg := "boom" }
    now := 0 }

/-- Oracle: turn classified to `ridenow`, whose reply records a non-auto
handoff to the unregistered identifier `bogus`. -/
def oC6a : TurnOracle :=
  { classify := Except.ok "ridenow"
    agentResult := fun a =>
      if a = "ridenow" then Except.ok (directiveResp "RideNow AI" "bogus" false)
      else Except.ok plainResp
    handoffResult := fun _ => Except.ok plainResp
    now := 0 }

/-- Oracle: turn classified to `foodie`, whose reply records a non-auto
handoff to `foodie` itself. -/
def oC6b : TurnOracle :=
  { classify := Except.ok "foodie"
    agentResult := fun a =>
      if a = "foodie" then Except.ok (directiveResp "Foodie AI" "foodie" false)
      else Except.ok plainResp
    handoffResult := fun _ => Except.ok plainResp
    now := 0 }

/-- Store reached by two ordinary turns (one per user). -/
def stC6 : Store :=
  runOps [Op.msg oC6a "u1" "need a cab", Op.msg oC6b "u2" "order pizza"]

/-- Oracle whose classification yields the malformed identifier `banana`. -/
def oC7w : TurnOracle :=
  { classify := Except.ok "banana"
    agentResult := fun _ => Except.ok plainResp
    handoffResult := fun _ => Except.ok plainResp
    now := 0 }

/-- A stored context with no active agent, used as an existing-user fixture. -/
def ctxA : Context :=
  { lastActivity := 5 }

/-- An existing-user store fixture. -/
def stW5 : Store :=
  [("u", ctxA)]

/-- A context with `handoffRequested` set, as left behind by a deferred
handoff turn. -/
def ctxPend : Context :=
  { currentAgent := some "ridenow", handoffRequested := true,
    handoffTarget := some "foodie" }

/-- Operation list with well-behaved oracles, for the C6 witness. -/
def opsW : List Op :=
  [Op.msg oPlain "u" "hello", Op.clear "v"]

/-! ## Store lemmas -/

theorem storeGet_storeSet_self (st : Store) (uid : String) (c : Context) :
    storeGet (storeSet st uid c) uid = some c := by
  induction st with
  | nil => simp [storeSet, storeGet]
  | cons p rest ih =>
    by_cases h : p.1 = uid
    · simp [storeSet, storeGet, h]
    · simp [storeSet, storeGet, h, ih]

theorem storeOk_storeSet (uid : String) (c : Context) (hc : ctxOk c) :
    ∀ st : Store, storeOk st → storeOk (storeSet st uid c) := by
  intro st
  induction st with
  | nil =>
    intro _ p hp
    simp [storeSet] at hp
    simpa [hp] using hc
  | cons q rest ih =>
    intro hst p hp
    by_cases h : q.1 = uid
    · simp [storeSet, h] at hp
      rcases hp with hp | hp
      · simpa [hp] using hc
      · exact hst p (List.mem_cons_of_mem _ hp)
    · simp [storeSet, h] at hp
      rcases hp with hp | hp
      · exact hst p (by simp [hp])
      · exact ih (fun r hr => hst r (List.mem_cons_of_mem _ hr)) p hp

theorem storeOk_filter (st : Store) (f : String × Context → Bool)
    (hst : storeOk st) : storeOk (st.filter f) := by
  intro p hp
  exact hst p (List.mem_of_mem_filter hp)

theorem ctxOk_of_storeGet {uid : String} {c : Context} :
    ∀ {st : Store}, storeOk st → storeGet st uid = some c → ctxOk c := by
  intro st
  induction st with
  | nil => intro _ h; simp [storeGet] at h
  | cons q rest ih =>
    intro hst h
    by_cases hq : q.1 = uid
    · simp [storeGet, hq] at h
      have := hst q (List.mem_cons_self _ _)
      rwa [h] at this
    · simp [storeGet, hq] at h
      exact ih (fun r hr => hst r (List.mem_cons_of_mem _ hr)) h


theorem ctxOk_default : ctxOk {} := by
  refine ⟨fun a ha => ?_, fun t ht => ?_⟩
  · cases ha
  · cases ht

/-! ## determineAgent lemmas -/

theorem classifyStep_contains (o : TurnOracle) (chk : Bool) :
    registeredAgents.contains (classifyStep o chk).agent = true := by
  unfold classifyStep
  cases o.classify with
  | error e => rfl
  | ok raw =>
    dsimp only
    by_cases h : registeredAgents.contains (jsToLower (jsTrim raw)) = true
    · rw [if_pos h]
      exact h
    · rw [if_neg h]
      rfl

theorem determineAgent_contains (o : TurnOracle) (m : String) (ctx : Context) :
    registeredAgents.contains (determineAgent o m ctx).agent = true := by
  unfold determineAgent
  cases hc : ctx.currentAgent with
  | none => exact classifyStep_contains o false
  | some cur =>
    dsimp only
    by_cases hreq : ctx.handoffRequested = true
    · rw [if_pos hreq]
      exact classifyStep_contains o false
    · rw [if_neg hreq]
      by_cases hcur : registeredAgents.contains cur = true
      · rw [if_pos hcur]
        by_cases hch : canHandleOf cur m = true
        · rw [if_pos hch]
          exact hcur
        · rw [if_neg hch]
          exact classifyStep_contains o true
      · rw [if_neg hcur]
        exact classifyStep_contains o false

theorem classifyStep_askme (o : TurnOracle) (chk : Bool)
    (hclass : ∀ raw, o.classify = Except.ok raw →
      registeredAgents.contains (jsToLower (jsTrim raw)) = false) :
    (classifyStep o chk).agent = "askme" := by
  unfold classifyStep
  cases hcl : o.classify with
  | error e => rfl
  | ok raw =>
    dsimp only
    rw [if_neg]
    intro hmem
    rw [hclass raw hcl] at hmem
    cases hmem

theorem determineAgent_askme (o : TurnOracle) (m : String) (c : Context)
    (hcalled : (determineAgent o m c).classifyCalled = true)
    (hclass : ∀ raw, o.classify = Except.ok raw →
      registeredAgents.contains (jsToLower (jsTrim raw)) = false) :
    (determineAgent o m c).agent = "askme" := by
  unfold determineAgent at hcalled ⊢
  cases hc : c.currentAgent with
  | none => exact classifyStep_askme o false hclass
  | some cur =>
    rw [hc] at hcalled
    dsimp only at hcalled ⊢
    by_cases hreq : c.handoffRequested = true
    · rw [if_pos hreq]
      exact classifyStep_askme o false hclass
    · rw [if_neg hreq] at hcalled ⊢
      by_cases hcur : registeredAgents.contains cur = true
      · rw [if_pos hcur] at hcalled ⊢
        by_cases hch : canHandleOf cur m = true
        · rw [if_pos hch] at hcalled
          cases hcalled
        · rw [if_neg hch] at hcalled ⊢
          exact classifyStep_askme o true hclass
      · rw [if_neg hcur] at hcalled ⊢
        exact classifyStep_askme o false hclass

/-! ## Invariant preservation -/

theorem sync_storeOk (inS : Bool) (uid : String) (st : Store) (c : Context)
    (hst : storeOk st) (hc : ctxOk c) : storeOk (sync inS uid st c) := by
  cases inS with
  | false => simpa [sync] using hst
  | true => simpa [sync] using storeOk_storeSet uid c hc st hst

theorem ctxOk_withHistory (c : Context) (h : List HistEntry) (hc : ctxOk c) :
    ctxOk { c with history := h } :=
  ⟨hc.1, hc.2⟩

theorem ctxOk_inboundCtx (o : TurnOracle) (m : String) (c : Context)
    (hc : ctxOk c) : ctxOk (inboundCtx o m c) :=
  ⟨hc.1, hc.2⟩

theorem ctxOk_clearFlags (ctx : Context) (t : String) (hc : HandCtx)
    (ht : registeredAgents.contains t = true) :
    ctxOk { ctx with
      handoffRequested := false
      handoffTarget := none
      handoffReason := none
      currentAgent := some t
      handoffContext := some hc } := by
  refine ⟨fun a ha => ?_, fun x hx => ?_⟩
  · simp only [Option.some.injEq] at ha
    rw [← ha]
    exact ht
  · cases hx

theorem ctxOk_recordHandoff (ctx : Context) (hist : List HistEntry)
    (t : String) (r : String) (hctx : ctxOk ctx)
    (ht : registeredAgents.contains t = true) :
    ctxOk { ctx with
      history := hist
      handoffRequested := true
      handoffTarget := some t
      handoffReason := some r } := by
  refine ⟨hctx.1, fun x hx => ?_⟩
  simp only [Option.some.injEq] at hx
  rw [← hx]
  exact ht

theorem processHandoff_storeOk (o : TurnOracle) (uid t : String) (hc : HandCtx)
    (st : Store) (hst : storeOk st) (ht : registeredAgents.contains t = true) :
    storeOk (exStore (processHandoff o uid t hc st)) := by
  unfold processHandoff
  cases hget : storeGet st uid with
  | none => exact hst
  | some ctx =>
    dsimp only
    rw [if_pos ht]
    have h1 : storeOk (storeSet st uid _) :=
      storeOk_storeSet uid _ (ctxOk_clearFlags ctx t hc ht) st hst
    cases hh : o.handoffResult t with
    | error e => exact h1
    | ok resp =>
      exact storeOk_storeSet uid _
        (ctxOk_withHistory _ _ (ctxOk_clearFlags ctx t hc ht)) _ h1

theorem afterResponse_storeOk (o : TurnOracle) (uid m : String) (inS : Bool)
    (st2 : Store) (ctx2 : Context) (at2 : String) (resp : AgentResponse)
    (hst2 : storeOk st2) (hctx2 : ctxOk ctx2)
    (hhand : ∀ h, resp.handoff = some h →
      registeredAgents.contains h.targetAgent = true) :
    storeOk (afterResponse o uid m inS st2 ctx2 at2 resp).1 := by
  unfold afterResponse
  have hctx3 := ctxOk_withHistory ctx2 (ctx2.history ++
    [HistEntry.agentE at2 resp.message o.now (resp.metadata.getD {})]) hctx2
  have hst3 := sync_storeOk inS uid st2 _ hst2 hctx3
  cases hh : resp.handoff with
  | none =>
    exact storeOk_filter _ _ (storeOk_storeSet uid _ hctx3 _ hst3)
  | some h =>
    dsimp only
    have hreg := hhand h hh
    have hctx4 := ctxOk_recordHandoff ctx2 (ctx2.history ++
      [HistEntry.agentE at2 resp.message o.now (resp.metadata.getD {})])
      h.targetAgent h.reason hctx2 hreg
    have hst4 := sync_storeOk inS uid _ _ hst3 hctx4
    by_cases hauto : h.autoHandoff = true
    · rw [if_pos hauto]
      have hph := processHandoff_storeOk o uid h.targetAgent h.hctx _ hst4 hreg
      cases hres : processHandoff o uid h.targetAgent h.hctx
          (sync inS uid (sync inS uid st2 _) _) with
      | ok pr =>
        rw [hres] at hph
        cases pr with
        | mk s env => exact hph
      | error pe =>
        rw [hres] at hph
        cases pe with
        | mk s e => exact hph
    · rw [if_neg hauto]
      exact storeOk_filter _ _ (storeOk_storeSet uid _ hctx4 _ hst4)

theorem processMessage_eq (o : TurnOracle) (uid m : String) (st : Store) :
    processMessage o uid m st =
      (match o.agentResult (determineAgent o m
          (inboundCtx o m ((storeGet st uid).getD {}))).agent with
       | Except.error e =>
         (sync (storeGet st uid).isSome uid st
           { inboundCtx o m ((storeGet st uid).getD {}) with
             currentAgent := some (determineAgent o m
               (inboundCtx o m ((storeGet st uid).getD {}))).agent },
          catchEnvelope o m e)
       | Except.ok resp =>
         afterResponse o uid m (storeGet st uid).isSome
           (sync (storeGet st uid).isSome uid st
             { inboundCtx o m ((storeGet st uid).getD {}) with
               currentAgent := some (determineAgent o m
                 (inboundCtx o m ((storeGet st uid).getD {}))).agent })
           { inboundCtx o m ((storeGet st uid).getD {}) with
             currentAgent := some (determineAgent o m
               (inboundCtx o m ((storeGet st uid).getD {}))).agent }
           (determineAgent o m (inboundCtx o m ((storeGet st uid).getD {}))).agent
           resp) :=
  rfl

theorem processMessage_storeOk (o : TurnOracle) (uid m : String) (st : Store)
    (hst : storeOk st) (hdir : dirOk o) :
    storeOk (processMessage o uid m st).1 := by
  rw [processMessage_eq]
  have hctx0 : ctxOk ((storeGet st uid).getD {}) := by
    cases hget : storeGet st uid with
    | none => exact ctxOk_default
    | some c => exact ctxOk_of_storeGet hst hget
  have hctx1 : ctxOk (inboundCtx o m ((storeGet st uid).getD {})) :=
    ctxOk_inboundCtx o m _ hctx0
  have hctx2 : ctxOk { inboundCtx o m ((storeGet st uid).getD {}) with
      currentAgent := some (determineAgent o m
        (inboundCtx o m ((storeGet st uid).getD {}))).agent } := by
    refine ⟨fun a ha => ?_, hctx1.2⟩
    simp only [Option.some.injEq] at ha
    rw [← ha]
    exact determineAgent_contains o m _
  have hst2 := sync_storeOk (storeGet st uid).isSome uid st _ hst hctx2
  cases har : o.agentResult (determineAgent o m
      (inboundCtx o m ((storeGet st uid).getD {}))).agent with
  | error e => exact hst2
  | ok resp =>
    exact afterResponse_storeOk o uid m _ _ _ _ resp hst2 hctx2
      (fun h hh => (hdir _ resp h har hh).1)

theorem foldl_storeOk :
    ∀ (ops : List Op) (st : Store), storeOk st → (∀ op ∈ ops, opOk op) →
      storeOk (ops.foldl applyOp st)
  | [], st, hst, _ => hst
  | op :: rest, st, hst, hops => by
    have hstep : storeOk (applyOp st op) := by
      cases op with
      | msg o uid t =>
        exact processMessage_storeOk o uid t st hst (hops _ (List.mem_cons_self _ _))
      | clear uid =>
        intro p hp
        exact hst p (List.mem_of_mem_filter hp)
    exact foldl_storeOk rest (applyOp st op) hstep
      (fun op' h' => hops op' (List.mem_cons_of_mem _ h'))

/-! ## Additional small lemmas for the claims -/

theorem classifyStep_flags (o : TurnOracle) (chk : Bool) :
    (classifyStep o chk).classifyCalled = true ∧
    (classifyStep o chk).canHandleCalled = chk := by
  unfold classifyStep
  cases o.classify with
  | error e => exact ⟨rfl, rfl⟩
  | ok raw =>
    dsimp only
    by_cases hr : registeredAgents.contains (jsToLower (jsTrim raw)) = true
    · rw [if_pos hr]
      exact ⟨rfl, rfl⟩
    · rw [if_neg hr]
      exact ⟨rfl, rfl⟩

/-! ## Claims -/

/-- Claim C1 (sticky routing, confirmed): for every turn where the context
has `currentAgent = A` with `A` registered, `handoffRequested` is false, and
`A.canHandle(message)` returns true, `determineAgent` returns `A`, consults
only that `canHandle`, and issues no classification request to the external
completion service. -/
theorem claim_C1_sticky_routing (o : TurnOracle) (msg : String) (ctx : Context)
    (A : String) (hA : ctx.currentAgent = some A)
    (hreq : ctx.handoffRequested = false)
    (hreg : registeredAgents.contains A = true)
    (hch : canHandleOf A msg = true) :
    determineAgent o msg ctx =
      { agent := A, classifyCalled := false, canHandleCalled := true } := by
  unfold determineAgent
  rw [hA]
  dsimp only
  have hreq2 : ¬ ctx.handoffRequested = true := by simp [hreq]
  rw [if_neg hreq2, if_pos hreg, if_pos hch]

theorem claim_C1_sticky_routing_witness :
    canHandleOf "ridenow" "book a cab" = true ∧
    determineAgent oPlain "book a cab" { currentAgent := some "ridenow" } =
      { agent := "ridenow", classifyCalled := false, canHandleCalled := true } :=
  ⟨by decide,
   claim_C1_sticky_routing oPlain "book a cab" _ "ridenow" rfl rfl
     (by decide) (by decide)⟩

/-- Claim C2 (deferred handoff, counterexample): a previous turn recorded a
non-auto handoff to the registered agent `foodie` for user `u` (reachable
store `stC2`), yet the next turn is NOT routed to `foodie`: `determineAgent`
skips `canHandle`, issues a fresh classification call, and returns the
classifier's answer `askme`; the envelope's agent is `askme` as well. -/
theorem claim_C2_deferred_handoff_cex :
    ctxC2.handoffRequested = true ∧
    ctxC2.handoffTarget = some "foodie" ∧
    registeredAgents.contains "foodie" = true ∧
    determineAgent oC2b "yes" (inboundCtx oC2b "yes" ctxC2) =
      { agent := "askme", classifyCalled := true, canHandleCalled := false } ∧
    (processMessage oC2b "u" "yes" stC2).2.agent = "askme" ∧
    ¬ ((determineAgent oC2b "yes" (inboundCtx oC2b "yes" ctxC2)).agent = "foodie" ∧
       (determineAgent oC2b "yes" (inboundCtx oC2b "yes" ctxC2)).classifyCalled = false) := by
  decide

/-- Claim C2 (deferred handoff, amended): a turn that begins with a pending
handoff bypasses the current agent's `canHandle` entirely, but instead of
short-circuiting to the recorded target it issues a fresh classification
call and routes to the classifier's result (default `askme`); the recorded
`handoffTarget` is ignored by route selection. -/
theorem claim_C2_deferred_handoff_amended (o : TurnOracle) (msg : String)
    (ctx : Context) (h : ctx.handoffRequested = true) :
    determineAgent o msg ctx = classifyStep o false ∧
    (classifyStep o false).classifyCalled = true ∧
    (classifyStep o false).canHandleCalled = false := by
  refine ⟨?_, (classifyStep_flags o false).1, (classifyStep_flags o false).2⟩
  unfold determineAgent
  cases hc : ctx.currentAgent with
  | none => rfl
  | some cur =>
    dsimp only
    rw [if_pos h]

theorem claim_C2_deferred_handoff_amended_witness :
    determineAgent oC2b "yes" ctxPend = classifyStep oC2b false ∧
    (classifyStep oC2b false).classifyCalled = true ∧
    (classifyStep oC2b false).canHandleCalled = false :=
  claim_C2_deferred_handoff_amended oC2b "yes" ctxPend rfl

/-- Claim C3 (auto-handoff on a first turn, code bug): on a user's very
first turn, the freshly created context has not yet been saved when
`processHandoff` re-fetches it, so an auto-handoff directive to the
registered agent `foodie` throws `No conversation context found for
handoff`; the turn degrades to the `askme` error envelope instead of
returning `agent = foodie`, and NO context at all is stored for the user. -/
theorem claim_C3_auto_handoff_first_turn_bug :
    (processMessage oC3 "u1" "take me to the airport" []).2.agent = "askme" ∧
    (processMessage oC3 "u1" "take me to the airport" []).2.error = some true ∧
    (processMessage oC3 "u1" "take me to the airport" []).2.originalError =
      some "No conversation context found for handoff" ∧
    (processMessage oC3 "u1" "take me to the airport" []).1 = [] := by
  decide

/-- Claim C4 (propagation policy, counterexample): when the chosen agent's
invocation throws `boom`, the returned envelope is NOT the claimed
well-formed `{agent, message, actions, suggestions, handoff, metadata}`
shape — `actions`, `suggestions`, `handoff` and `metadata` are absent — and
the raw error detail IS included as `originalError`. -/
theorem claim_C4_propagation_cex :
    (processMessage oC4 "u" "hi" []).2.originalError = some "boom" ∧
    (processMessage oC4 "u" "hi" []).2.actions = none ∧
    (processMessage oC4 "u" "hi" []).2.suggestions = none ∧
    (processMessage oC4 "u" "hi" []).2.metadata = none ∧
    (processMessage oC4 "u" "hi" []).2.handoff = HandoffField.absent := by
  decide

/-- Claim C4 (propagation policy, amended): `processMessage` is total (no
failure reaches the transport layer), and on any agent-invocation failure it
returns the catch envelope: `agent = askme`, the message is the default
agent's degraded reply, `error = true`, and `originalError` carries the raw
error message; the `actions`/`suggestions`/`handoff`/`metadata` keys are
absent from that envelope. -/
theorem claim_C4_propagation_amended (o : TurnOracle) (uid msg : String)
    (st : Store) (e : JsError)
    (hfail : ∀ a, o.agentResult a = Except.error e) :
    (processMessage o uid msg st).2 = catchEnvelope o msg e ∧
    (catchEnvelope o msg e).agent = "askme" ∧
    (catchEnvelope o msg e).message = (askMeHandleError o.now msg).message ∧
    (catchEnvelope o msg e).originalError = some e.msg := by
  refine ⟨?_, rfl, rfl, rfl⟩
  rw [processMessage_eq, hfail]

theorem claim_C4_propagation_amended_witness :
    (processMessage oC4 "w4" "hi" []).2 = catchEnvelope oC4 "hi" { msg := "boom" } ∧
    (catchEnvelope oC4 "hi" { msg := "boom" }).agent = "askme" ∧
    (catchEnvelope oC4 "hi" { msg := "boom" }).message =
      (askMeHandleError oC4.now "hi").message ∧
    (catchEnvelope oC4 "hi" { msg := "boom" }).originalError = some "boom" :=
  claim_C4_propagation_amended oC4 "w4" "hi" [] { msg := "boom" } (fun _ => rfl)

/-- Claim C5 (failure atomicity, counterexample): for a FIRST-TURN user, a
turn that fails during agent invocation leaves the store with no context for
that user at all — the inbound message is lost, contradicting the claim's
"this holds for first-turn users as well". -/
theorem claim_C5_atomicity_cex :
    (processMessage oC4 "u" "hi" []).1 = [] ∧
    storeGet (processMessage oC4 "u" "hi" []).1 "u" = none := by
  decide

/-- Claim C5 (failure atomicity, amended): for a user with an EXISTING
stored context, a turn that fails during agent invocation still leaves the
store containing that user's context with the inbound user message appended
to `history` (recorded before any blocking call) and `lastActivity` updated;
the appended entry is exactly the inbound message — the error content of the
turn is NOT added to history, and first-turn users get no stored context. -/
theorem claim_C5_atomicity_amended (o : TurnOracle) (uid msg : String)
    (st : Store) (ctx : Context) (e : JsError)
    (hget : storeGet st uid = some ctx)
    (hfail : ∀ a, o.agentResult a = Except.error e) :
    ∃ c, storeGet (processMessage o uid msg st).1 uid = some c ∧
      c.history = ctx.history ++ [HistEntry.user msg o.now] ∧
      c.lastActivity = o.now := by
  rw [processMessage_eq, hfail, hget]
  exact ⟨{ inboundCtx o msg ctx with
      currentAgent := some (determineAgent o msg (inboundCtx o msg ctx)).agent },
    storeGet_storeSet_self st uid _, rfl, rfl⟩

theorem claim_C5_atomicity_amended_witness :
    ∃ c, storeGet (processMessage oC4 "u" "hi" stW5).1 "u" = some c ∧
      c.history = ctxA.history ++ [HistEntry.user "hi" oC4.now] ∧
      c.lastActivity = oC4.now :=
  claim_C5_atomicity_amended oC4 "u" "hi" stW5 ctxA { msg := "boom" } rfl
    (fun _ => rfl)

/-- Claim C6 (context invariant, counterexample): the store reached by two
ordinary turns violates both parts of the claimed invariant.  User `u1`'s
context has `handoffTarget = bogus`, which is not a registered agent (the
code never validates directive targets); user `u2`'s context records a
handoff whose target equals the `currentAgent` at the moment of recording
(`foodie` handed off to itself), violating distinctness. -/
theorem claim_C6_invariant_cex :
    (storeGet stC6 "u1").map targetAndCurrent = some (some "bogus", some "ridenow") ∧
    registeredAgents.contains "bogus" = false ∧
    (storeGet stC6 "u2").map targetAndCurrent = some (some "foodie", some "foodie") := by
  decide

/-- Claim C6 (context invariant, amended): the code performs no roster
validation of handoff targets, so the invariant holds only conditionally:
provided every handoff directive produced by an invoked agent names a
registered target distinct from the producing agent, every context reachable
through any sequence of `processMessage` (including its internal
`processHandoff`) and `clearUserContext` operations has `currentAgent` empty
or registered and `handoffTarget` empty or registered; distinctness from the
current agent at recording time then follows from the directive assumption,
but is not a state invariant. -/
theorem claim_C6_invariant_amended (ops : List Op)
    (h : ∀ op ∈ ops, opOk op) : storeOk (runOps ops) := by
  unfold runOps
  exact foldl_storeOk ops [] (fun p hp => absurd hp (List.not_mem_nil p)) h

theorem claim_C6_invariant_amended_witness : storeOk (runOps opsW) := by
  apply claim_C6_invariant_amended
  intro op hop
  simp only [opsW, List.mem_cons, List.mem_singleton] at hop
  rcases hop with h | h | h
  · subst h
    intro a r hD h1 h2
    have hr : plainResp = r := by
      have h1b : Except.ok (ε := JsError) plainResp = Except.ok r := h1
      injection h1b
    rw [← hr] at h2
    exact Option.noConfusion h2
  · subst h
    trivial
  · cases h

/-- Claim C7 (fallback guarantee, confirmed): whenever a turn consults the
classifier and the classification either throws or yields an identifier that
is not registered after trim/lowercase, the turn completes (the model is a
total function — no fault escapes) with the envelope's agent equal to the
default agent `askme`.  The hypothesis on `askme`'s replies (they never
carry a handoff directive) is taken from the `AskMeAgent` source, which
never calls `createHandoff`. -/
theorem claim_C7_fallback (o : TurnOracle) (uid msg : String) (st : Store)
    (hcalled : (determineAgent o msg
      (inboundCtx o msg ((storeGet st uid).getD {}))).classifyCalled = true)
    (hclass : ∀ raw, o.classify = Except.ok raw →
      registeredAgents.contains (jsToLower (jsTrim raw)) = false)
    (haskme : ∀ r, o.agentResult "askme" = Except.ok r → r.handoff = none) :
    (processMessage o uid msg st).2.agent = "askme" := by
  have hag := determineAgent_askme o msg _ hcalled hclass
  rw [processMessage_eq, hag]
  cases har : o.agentResult "askme" with
  | error e => rfl
  | ok resp =>
    have hnone := haskme resp har
    dsimp only
    unfold afterResponse
    rw [hnone]
    rfl

theorem claim_C7_fallback_witness :
    (processMessage oC7w "u" "what is the weather" []).2.agent = "askme" := by
  apply claim_C7_fallback
  · decide
  · intro raw h
    have h2 : Except.ok (ε := JsError) "banana" = Except.ok raw := h
    injection h2 with h3
    rw [← h3]
    decide
  · intro r h
    have h2 : Except.ok (ε := JsError) plainResp = Except.ok r := h
    injection h2 with h3
    rw [← h3]
    rfl

/-- Claim C8 (degraded-response contract, counterexample): `RideNowAgent`'s
recoverable-failure path does return a degraded response without throwing,
but that response has NO `metadata` at all — the error flag is the top-level
`error: true`, not `metadata.error = true` as claimed. -/
theorem claim_C8_degraded_cex :
    (rideNowProcessMessage (Except.error { msg := "boom" }) "hi").error = some true ∧
    (rideNowProcessMessage (Except.error { msg := "boom" }) "hi").metadata = none := by
  decide

/-- Claim C8 (degraded-response contract, amended): on a recoverable internal
failure each agent's `processMessage` returns (does not throw) a degraded
response, but the error marker is not in `metadata`: `RideNowAgent` (via
`BaseAgent.handleError`) returns top-level `error = true` with no metadata,
and `AskMeAgent` (its own `handleError`) returns a formatted reply whose
metadata carries only agent/timestamp and no error flag at all. -/
theorem claim_C8_degraded_amended (e : JsError) (m : String) (now : Int) :
    rideNowProcessMessage (Except.error e) m = baseHandleError m ∧
    (baseHandleError m).error = some true ∧
    (baseHandleError m).metadata = none ∧
    askMeProcessMessage now (Except.error e) m = askMeHandleError now m ∧
    (askMeHandleError now m).error = none ∧
    (askMeHandleError now m).metadata =
      some { agent := some "AskMe AI", timestamp := some now, error := none } :=
  ⟨rfl, rfl, rfl, rfl, rfl, rfl⟩

theorem claim_C8_degraded_amended_witness :
    rideNowProcessMessage (Except.error { msg := "boom" }) "hello" =
      baseHandleError "hello" ∧
    (baseHandleError "hello").error = some true ∧
    (baseHandleError "hello").metadata = none ∧
    askMeProcessMessage 7 (Except.error { msg := "boom" }) "hello" =
      askMeHandleError 7 "hello" ∧
    (askMeHandleError 7 "hello").error = none ∧
    (askMeHandleError 7 "hello").metadata =
      some { agent := some "AskMe AI", timestamp := some 7, error := none } :=
  claim_C8_degraded_amended { msg := "boom" } "hello" 7

/-- Claim C9 (agent roster query, code bug): with the initialized roster,
`getAvailableAgents` does return the registered identifiers, but
`getAgentStatus` RAISES a `TypeError` instead of returning descriptor
snapshots — `BaseAgent` defines `isActive` as a boolean field (`true`), and
`getAgentStatus` evaluates `agent.isActive ? agent.isActive() : true`, which
calls the boolean as a function on the very first agent. -/
theorem claim_C9_roster_bug :
    getAvailableAgents (initRoster 0) = registeredAgents ∧
    getAgentStatus (initRoster 0) =
      Except.error { msg := "agent.isActive is not a function" } := by
  exact ⟨rfl, rfl⟩

/-- Claim C10 (eviction correctness, confirmed): a cleanup sweep at time
`now` keeps exactly the entries whose `lastActivity` is at least
`now - 24h` (it deletes exactly the strictly-older ones, leaving kept
entries unchanged), and a sweep over a store with no context beyond the
threshold evicts nothing. -/
theorem claim_C10_eviction (now : Int) (st : Store) (p : String × Context) :
    (p ∈ cleanupOldContexts now st ↔
      p ∈ st ∧ now - 86400000 ≤ p.2.lastActivity) ∧
    ((∀ q ∈ st, now - 86400000 ≤ q.2.lastActivity) →
      cleanupOldContexts now st = st) := by
  constructor
  · unfold cleanupOldContexts
    simp [List.mem_filter]
  · intro h
    unfold cleanupOldContexts
    rw [List.filter_eq_self]
    intro q hq
    exact decide_eq_true (h q hq)

theorem claim_C10_eviction_witness :
    (("u", ctxA) ∈ cleanupOldContexts 0 stW5 ↔
      ("u", ctxA) ∈ stW5 ∧ (0 : Int) - 86400000 ≤ ctxA.lastActivity) ∧
    cleanupOldContexts 0 stW5 = stW5 := by
  have h := claim_C10_eviction 0 stW5 ("u", ctxA)
  refine ⟨h.1, h.2 ?_⟩
  intro q hq
  simp only [stW5, List.mem_singleton] at hq
  subst hq
  decide

end AgentOrch
